import Mathlib

/-!
Verification of `adapt-reference.py`, a one-shot source-to-source text
transformation script.  The script reads two files, extracts fragments by
marker search, applies a fixed replacement table, assembles an output string
and overwrites the current component file.

Python strings are embedded as `List Char`.  The Python primitives used by
the script (`str.find`, slicing, `str.replace`, `str.split`, `in`, `l[i]`)
are given executable definitions with Python semantics (negative slice
indices clamp, `find` returns `-1` on failure, `replace` rewrites leftmost
non-overlapping occurrences, `split`/`replace` are only ever called with
non-empty patterns by the script).  File reads, the single write and the
final prints are modelled by an explicit file-system state `FS` and an
`Except`-valued script runner.
-/

/-- Python `s.find(k)`: index of the first occurrence of `k` in `s`, `-1` if absent. -/
def pyFind (s k : List Char) : Int :=
  if k.isPrefixOf s then 0
  else
    match s with
    | [] => -1
    | _ :: rest =>
      let r := pyFind rest k
      if r = -1 then -1 else r + 1

/-- Python slice `s[a:b]` (step 1): negative indices count from the end,
out-of-range indices clamp. -/
def pySlice (s : List Char) (a b : Int) : List Char :=
  let n : Int := s.length
  let lo : Int := if a < 0 then max (n + a) 0 else min a n
  let hi : Int := if b < 0 then max (n + b) 0 else min b n
  (s.take hi.toNat).drop lo.toNat

/-- Python `s.replace(old, new)`: rewrite every leftmost non-overlapping
occurrence of `old` by `new`, scanning left to right.  The script only calls
this with non-empty `old`; for `old = []` this returns `s` unchanged. -/
def pyReplace (s old new : List Char) : List Char :=
  match s with
  | [] => []
  | c :: rest =>
    if h : old ≠ [] ∧ old.isPrefixOf (c :: rest) then
      new ++ pyReplace ((c :: rest).drop old.length) old new
    else
      c :: pyReplace rest old new
termination_by s.length
decreasing_by
  · have ho : 0 < old.length := List.length_pos.mpr h.1
    simp only [List.length_drop, List.length_cons]
    omega
  · simp

/-- Python `s.split(sep)` for non-empty `sep`: the pieces of `s` between
non-overlapping occurrences of `sep`, scanning left to right.  The script
only calls this with non-empty `sep` (Python raises on an empty separator). -/
def pySplit (s sep : List Char) : List (List Char) :=
  match s with
  | [] => [[]]
  | c :: rest =>
    if h : sep ≠ [] ∧ sep.isPrefixOf (c :: rest) then
      [] :: pySplit ((c :: rest).drop sep.length) sep
    else
      let r := pySplit rest sep
      (c :: r.headD []) :: r.tail
termination_by s.length
decreasing_by
  · have ho : 0 < sep.length := List.length_pos.mpr h.1
    simp only [List.length_drop, List.length_cons]
    omega
  · simp

/-- Python `k in s` (substring containment). -/
def pyIn (k s : List Char) : Bool := decide (k <:+: s)

/-- The two fixed file paths the script touches. -/
def curPath : String := "src/components/tickets/ServiceTicketCard.tsx"

/-- The reference file path (read only). -/
def refPath : String := "src/components/tickets/ServiceTicketCard_REF.tsx"

/-- The literal that anchors the start of the header regex. -/
def importLit : List Char := "import".toList

/-- The literal that ends the header regex match. -/
def hasNoteLit : List Char := "const hasNote = !!ticket.notes;".toList

/-- Modelled from the source regex
`re.search(r'(import[\s\S]*?const hasNote = !!ticket\.notes;)', current)`:
an unanchored leftmost match of the literal `import`, a lazy gap, then the
literal `const hasNote = !!ticket.notes;`.  A match exists iff the first
occurrence of `import` is followed (at or after its end) by an occurrence of
the closing literal; laziness makes the match end at the first such
occurrence.  Returns the matched group, `none` when the search fails. -/
def headerMatch (current : List Char) : Option (List Char) :=
  let i := pyFind current importLit
  if i < 0 then none
  else
    let j := pyFind (current.drop (i.toNat + importLit.length)) hasNoteLit
    if j < 0 then none
    else some ((current.drop i.toNat).take (importLit.length + j.toNat + hasNoteLit.length))

/-- `header = header_match.group(1) if header_match else ''` -/
def headerOf (current : List Char) : List Char := (headerMatch current).getD []

/-- Marker `'// List View Layout'`. -/
def listMarker : List Char := "// List View Layout".toList

/-- Marker `'// Grid View Layout'`. -/
def gridMarker : List Char := "// Grid View Layout".toList

/-- `list_section = ref[ref.find('// List View Layout'):ref.find('// Grid View Layout')]` -/
def list_section (ref : List Char) : List Char :=
  pySlice ref (pyFind ref listMarker) (pyFind ref gridMarker)

/-- `grid_section = ref[ref.find('// Grid View Layout'):]` -/
def grid_section (ref : List Char) : List Char :=
  pySlice ref (pyFind ref gridMarker) (ref.length : Int)

/-- `list_parts = list_section.split('isCompact ? ')` (computed by the script
but never used afterwards). -/
def list_parts (ref : List Char) : List (List Char) :=
  pySplit (list_section ref) "isCompact ? ".toList

/-- Mapping key `layout === 'list'`. -/
def layoutKey : List Char := "layout === \x27list\x27".toList

/-- Mapping value `viewMode === 'compact' || viewMode === 'normal'`. -/
def vmBoth : List Char := "viewMode === \x27compact\x27 || viewMode === \x27normal\x27".toList

/-- Mapping key `size === 'compact'`. -/
def sizeKey : List Char := "size === \x27compact\x27".toList

/-- Replacement text `viewMode === 'compact'`. -/
def vmCompact : List Char := "viewMode === \x27compact\x27".toList

/-- Replacement text `viewMode === 'normal'`. -/
def vmNormal : List Char := "viewMode === \x27normal\x27".toList

/-- Mapping key `isCompact`. -/
def isCompactKey : List Char := "isCompact".toList

/-- Mapping value `(viewMode === 'compact')`. -/
def isCompactParen : List Char := "(viewMode === \x27compact\x27)".toList

/-- The `mappings` dict of the script, in insertion (= iteration) order. -/
def mappings : List (List Char × List Char) :=
  [("card.ticketNumber".toList, "ticket.number".toList),
   ("card.customerName".toList, "ticket.clientName".toList),
   ("card.serviceName".toList, "ticket.service".toList),
   ("card.percentage".toList, "progress".toList),
   ("card.isFirstVisit".toList, "isFirstVisit".toList),
   ("card.hasStar".toList, "hasStar".toList),
   ("card.hasNote".toList, "hasNote".toList),
   ("card.staff".toList, "staffList".toList),
   ("card.timeLeft".toList, "formatTime(timeRemaining)".toList),
   ("card.id".toList, "ticket.id".toList),
   (layoutKey, vmBoth),
   (sizeKey, vmCompact),
   (isCompactKey, isCompactParen)]

/-- `def apply_mappings(code): for old, new in mappings.items(): code = code.replace(old, new)` -/
def apply_mappings (code : List Char) : List Char :=
  mappings.foldl (fun acc p => pyReplace acc p.1 p.2) code

/-- `list_adapted = apply_mappings(list_section)` -/
def list_adapted (ref : List Char) : List Char := apply_mappings (list_section ref)

/-- `grid_adapted = apply_mappings(grid_section)` -/
def grid_adapted (ref : List Char) : List Char := apply_mappings (grid_section ref)

/-- Build the compact view: replace `layout === 'list'` by
`viewMode === 'compact'`, then `(viewMode === 'compact')` by `true`. -/
def compact_view (ref : List Char) : List Char :=
  pyReplace (pyReplace (list_adapted ref) layoutKey vmCompact) isCompactParen "true".toList

/-- Build the normal view: replace `layout === 'list'` by
`viewMode === 'normal'`, then `(viewMode === 'compact')` by `false`. -/
def normal_view (ref : List Char) : List Char :=
  pyReplace (pyReplace (list_adapted ref) layoutKey vmNormal) isCompactParen "false".toList

/-- The split pattern `return (`. -/
def retParen : List Char := "return (".toList

/-- `grid_normal`: wrap the adapted grid section in a `grid-normal` guard. -/
def grid_normal (ref : List Char) : List Char :=
  pyReplace (grid_adapted ref) retParen
      "if (viewMode === \x27grid-normal\x27) \x7b\n  return (".toList
    ++ "\n  \x7d".toList

/-- `grid_compact`: wrap the adapted grid section in a `grid-compact` guard
and shrink three sizing classes. -/
def grid_compact (ref : List Char) : List Char :=
  pyReplace
    (pyReplace
      (pyReplace
        (pyReplace (grid_adapted ref) retParen
          "if (viewMode === \x27grid-compact\x27) \x7b\n  return (".toList)
        "min-w-[280px]".toList "min-w-[240px]".toList)
      "w-11 sm:w-14".toList "w-9 sm:w-11".toList)
    "text-lg sm:text-2xl".toList "text-base sm:text-xl".toList
  ++ "\n  \x7d".toList

/-- Errors the script can raise: a missing input file, or an out-of-range
list index (Python `IndexError`). -/
inductive ScriptErr where
  | fileNotFound : ScriptErr
  | indexError : ScriptErr
deriving DecidableEq, Repr

/-- Python `l[1]`, which raises `IndexError` on a too-short list. -/
def pyIndex1 (l : List (List Char)) : Except ScriptErr (List Char) :=
  match l[1]? with
  | some x => Except.ok x
  | none => Except.error ScriptErr.indexError

/-- The f-string fragment
`v.split('return (')[1] if 'return (' in v else v`, with the indexing that
Python would perform made explicit as a fallible operation. -/
def condBodyE (v : List Char) : Except ScriptErr (List Char) :=
  if pyIn retParen v then pyIndex1 (pySplit v retParen) else Except.ok v

/-- The value `condBodyE` always succeeds with (see `condBodyE_eq`). -/
def condBodyPure (v : List Char) : List Char :=
  if pyIn retParen v then ((pySplit v retParen)[1]?).getD [] else v

/-- The assembled output string (the f-string of the source, lines 71-91). -/
def outputOf (cur ref : List Char) : List Char :=
  headerOf cur
  ++ "\n\n  // LIST COMPACT VIEW\n  if (viewMode === \x27compact\x27) \x7b\n    return (\n".toList
  ++ condBodyPure (compact_view ref)
  ++ "\n  \x7d\n\n  // LIST NORMAL VIEW\n  if (viewMode === \x27normal\x27) \x7b\n    return (\n".toList
  ++ condBodyPure (normal_view ref)
  ++ "\n  \x7d\n\n".toList
  ++ grid_normal ref
  ++ "\n\n".toList
  ++ grid_compact ref
  ++ "\n\n  return null;\n\x7d\n".toList

/-- The f-string evaluation with its two fallible index operations. -/
def outputE (cur ref : List Char) : Except ScriptErr (List Char) := do
  let cb ← condBodyE (compact_view ref)
  let nb ← condBodyE (normal_view ref)
  Except.ok
    (headerOf cur
      ++ "\n\n  // LIST COMPACT VIEW\n  if (viewMode === \x27compact\x27) \x7b\n    return (\n".toList
      ++ cb
      ++ "\n  \x7d\n\n  // LIST NORMAL VIEW\n  if (viewMode === \x27normal\x27) \x7b\n    return (\n".toList
      ++ nb
      ++ "\n  \x7d\n\n".toList
      ++ grid_normal ref
      ++ "\n\n".toList
      ++ grid_compact ref
      ++ "\n\n  return null;\n\x7d\n".toList)

/-- The file system: a map from paths to file contents. -/
structure FS where
  files : String → Option (List Char)

/-- `open(p).read()`: fails with an unhandled error when the file is missing. -/
def readFile (fs : FS) (p : String) : Except ScriptErr (List Char) :=
  match fs.files p with
  | some c => Except.ok c
  | none => Except.error ScriptErr.fileNotFound

/-- The three messages printed at the end of every successful run. -/
def printedMessages : List String :=
  ["✅ Reference design applied successfully!",
   "📝 File: src/components/tickets/ServiceTicketCard.tsx",
   "\n🧪 Next: Run npm run build to verify"]

/-- One run of the script: read the two fixed paths, assemble the output,
overwrite `curPath`, print the success messages.  Returns the final file
system and the printed lines, or the unhandled error that aborted the run. -/
def runScript (fs : FS) : Except ScriptErr (FS × List String) := do
  let current ← readFile fs curPath
  let ref ← readFile fs refPath
  let _ := headerOf current
  let out ← outputE current ref
  Except.ok (⟨fun p => if p = curPath then some out else fs.files p⟩, printedMessages)

/-- What an outside observer can see of a run: the bytes at the written path
and the printed messages (or the error). -/
def observedOutput (r : Except ScriptErr (FS × List String)) :
    Except ScriptErr (Option (List Char) × List String) :=
  r.map fun x => (x.1.files curPath, x.2)

/-- Demo contents for the current file: no `import`, no markers. -/
def curDemo : List Char := "xy".toList

/-- Demo contents for the reference file: no markers. -/
def refDemo : List Char := "ab".toList

/-- A demo file system holding both input files. -/
def fsDemo : FS :=
  ⟨fun p => if p = curPath then some curDemo else if p = refPath then some refDemo else none⟩

/-- A second demo file system: same two input files, an extra unrelated file. -/
def fsDemoB : FS :=
  ⟨fun p => if p = curPath then some curDemo else if p = refPath then some refDemo
    else some "junk".toList⟩

/-- A file system with no files at all. -/
def fsEmpty : FS := ⟨fun _ => none⟩

/-- A demo reference containing both markers. -/
def refMk : List Char := "// List View Layout AA // Grid View Layout BB".toList

/-- A demo file system pairing `curDemo` with the marker-bearing reference. -/
def fsMk : FS :=
  ⟨fun p => if p = curPath then some curDemo else if p = refPath then some refMk else none⟩

theorem pyReplace_nil (old new : List Char) : pyReplace [] old new = [] := by
  rw [pyReplace]

theorem pyReplace_pos (c : Char) (rest old new : List Char)
    (h1 : old ≠ []) (h2 : old.isPrefixOf (c :: rest)) :
    pyReplace (c :: rest) old new = new ++ pyReplace ((c :: rest).drop old.length) old new := by
  rw [pyReplace]
  rw [dif_pos ⟨h1, h2⟩]

theorem pyReplace_neg (c : Char) (rest old new : List Char)
    (h : ¬(old ≠ [] ∧ old.isPrefixOf (c :: rest))) :
    pyReplace (c :: rest) old new = c :: pyReplace rest old new := by
  rw [pyReplace]
  rw [dif_neg h]

theorem pySplit_nil (sep : List Char) : pySplit [] sep = [[]] := by
  rw [pySplit]

theorem pySplit_pos (c : Char) (rest sep : List Char)
    (h1 : sep ≠ []) (h2 : sep.isPrefixOf (c :: rest)) :
    pySplit (c :: rest) sep = [] :: pySplit ((c :: rest).drop sep.length) sep := by
  rw [pySplit]
  rw [dif_pos ⟨h1, h2⟩]

theorem pySplit_neg (c : Char) (rest sep : List Char)
    (h : ¬(sep ≠ [] ∧ sep.isPrefixOf (c :: rest))) :
    pySplit (c :: rest) sep =
      (c :: (pySplit rest sep).headD []) :: (pySplit rest sep).tail := by
  rw [pySplit]
  rw [dif_neg h]

theorem prefix_append_split {K a b : List Char} (h : K <+: a ++ b) :
    K <+: a ∨ (a <+: K ∧ K.drop a.length <+: b) := by
  induction a generalizing K with
  | nil =>
    right
    exact ⟨List.nil_prefix, by simpa using h⟩
  | cons x a' ih =>
    cases K with
    | nil => exact Or.inl List.nil_prefix
    | cons y K' =>
      rw [List.cons_append, List.cons_prefix_cons] at h
      obtain ⟨rfl, h'⟩ := h
      rcases ih h' with h1 | ⟨h1, h2⟩
      · exact Or.inl (List.cons_prefix_cons.mpr ⟨rfl, h1⟩)
      · refine Or.inr ⟨List.cons_prefix_cons.mpr ⟨rfl, h1⟩, ?_⟩
        simpa using h2

theorem infix_iff_exists_drop {K t : List Char} : K <:+: t ↔ ∃ i, K <+: t.drop i := by
  constructor
  · rintro ⟨p, q, rfl⟩
    refine ⟨p.length, ?_⟩
    rw [List.append_assoc, List.drop_left]
    exact List.prefix_append K q
  · rintro ⟨i, q, hq⟩
    refine ⟨t.take i, q, ?_⟩
    rw [List.append_assoc, hq, List.take_append_drop]

theorem infix_of_infix_drop {K t : List Char} {i : Nat} (h : K <:+: t.drop i) : K <:+: t :=
  h.trans (List.drop_suffix i t).isInfix

theorem infix_cons_cases {K : List Char} {c : Char} {L : List Char} (h : K <:+: c :: L) :
    K <+: c :: L ∨ K <:+: L :=
  List.infix_cons_iff.mp h

theorem infix_append_cases3 {K a b : List Char} (h : K <:+: a ++ b) :
    K <:+: a ∨ K <:+: b ∨
      ∃ j, 0 < j ∧ j < K.length ∧ K.take j <:+ a ∧ K.drop j <+: b := by
  obtain ⟨i, hi⟩ := infix_iff_exists_drop.mp h
  by_cases hia : a.length ≤ i
  · right; left
    rw [List.drop_append_eq_append_drop, List.drop_eq_nil_of_le hia, List.nil_append] at hi
    exact infix_iff_exists_drop.mpr ⟨i - a.length, hi⟩
  · push_neg at hia
    rw [List.drop_append_eq_append_drop, Nat.sub_eq_zero_of_le (Nat.le_of_lt hia),
      List.drop_zero] at hi
    rcases prefix_append_split hi with h1 | ⟨h1, h2⟩
    · exact Or.inl (infix_of_infix_drop h1.isInfix)
    · have hj0 : 0 < (a.drop i).length := by
        rw [List.length_drop]; omega
      by_cases hjK : (a.drop i).length < K.length
      · right; right
        refine ⟨(a.drop i).length, hj0, hjK, ?_, h2⟩
        have he : a.drop i = K.take (a.drop i).length := List.prefix_iff_eq_take.mp h1
        rw [← he]
        exact List.drop_suffix i a
      · push_neg at hjK
        left
        have he : a.drop i = K := h1.eq_of_length (Nat.le_antisymm h1.length_le hjK)
        rw [← he]
        exact (List.drop_suffix i a).isInfix

theorem pyFind_nil (k : List Char) : pyFind [] k = if k.isPrefixOf [] then 0 else -1 := by
  rw [pyFind.eq_def]

theorem pyFind_pre {s k : List Char} (h : k.isPrefixOf s) : pyFind s k = 0 := by
  rw [pyFind.eq_def]
  rw [if_pos h]

theorem pyFind_cons_neg {c : Char} {rest k : List Char} (h : ¬ k.isPrefixOf (c :: rest)) :
    pyFind (c :: rest) k =
      (if pyFind rest k = -1 then -1 else pyFind rest k + 1) := by
  rw [pyFind.eq_def]
  rw [if_neg h]

theorem pyFind_ge (s k : List Char) : -1 ≤ pyFind s k := by
  induction s with
  | nil =>
    rw [pyFind_nil]
    split <;> omega
  | cons c rest ih =>
    by_cases h : k.isPrefixOf (c :: rest)
    · rw [pyFind_pre h]; omega
    · rw [pyFind_cons_neg h]
      split <;> omega

theorem pyFind_le (s k : List Char) : pyFind s k ≤ s.length := by
  induction s with
  | nil =>
    rw [pyFind_nil]
    split <;> simp
  | cons c rest ih =>
    by_cases h : k.isPrefixOf (c :: rest)
    · rw [pyFind_pre h]
      simp only [List.length_cons]
      omega
    · rw [pyFind_cons_neg h]
      have := pyFind_ge rest k
      simp only [List.length_cons]
      split <;> [omega; omega]

theorem pyFind_eq_neg_one_iff (s k : List Char) : pyFind s k = -1 ↔ ¬ k <:+: s := by
  induction s with
  | nil =>
    rw [pyFind_nil]
    by_cases h : k.isPrefixOf ([] : List Char)
    · rw [if_pos h]
      have : k = [] := by simpa using (List.isPrefixOf_iff_prefix.mp h)
      subst this
      simp
    · rw [if_neg h]
      have : k ≠ [] := by
        intro he; exact h (by simp [he, List.isPrefixOf])
      simp [List.infix_nil, this]
  | cons c rest ih =>
    by_cases h : k.isPrefixOf (c :: rest)
    · rw [pyFind_pre h]
      have hk : k <+: c :: rest := List.isPrefixOf_iff_prefix.mp h
      simp [hk.isInfix]
    · rw [pyFind_cons_neg h]
      have hnp : ¬ k <+: c :: rest := fun hc => h (List.isPrefixOf_iff_prefix.mpr hc)
      have hiff : k <:+: c :: rest ↔ k <:+: rest := by
        rw [List.infix_cons_iff]
        simp [hnp]
      have hge := pyFind_ge rest k
      by_cases hr : pyFind rest k = -1
      · rw [if_pos hr]
        simp only [true_iff, iff_true]
        rw [hiff]
        exact ih.mp hr
      · rw [if_neg hr]
        constructor
        · intro hcon; omega
        · intro hcon
          exact absurd (hiff.mpr (of_not_not (fun hn => hr (ih.mpr hn)))) hcon

theorem pyFind_spec (s k : List Char) (h : k <:+: s) :
    0 ≤ pyFind s k ∧ k <+: s.drop (pyFind s k).toNat ∧
      ∀ m, m < (pyFind s k).toNat → ¬ k <+: s.drop m := by
  induction s with
  | nil =>
    have hk : k = [] := List.infix_nil.mp h
    subst hk
    rw [pyFind_pre (by simp [List.isPrefixOf])]
    refine ⟨le_refl 0, by simp, ?_⟩
    intro m hm
    simp at hm
  | cons c rest ih =>
    by_cases hp : k.isPrefixOf (c :: rest)
    · rw [pyFind_pre hp]
      refine ⟨le_refl 0, by simpa using List.isPrefixOf_iff_prefix.mp hp, ?_⟩
      intro m hm
      simp at hm
    · have hnp : ¬ k <+: c :: rest := fun hc => hp (List.isPrefixOf_iff_prefix.mpr hc)
      have hrest : k <:+: rest := by
        rcases infix_cons_cases h with h1 | h1
        · exact absurd h1 hnp
        · exact h1
      obtain ⟨ih1, ih2, ih3⟩ := ih hrest
      have hr : pyFind rest k ≠ -1 := by omega
      rw [pyFind_cons_neg hp, if_neg hr]
      refine ⟨by omega, ?_, ?_⟩
      · have : (pyFind rest k + 1).toNat = (pyFind rest k).toNat + 1 := by omega
        rw [this]
        simpa using ih2
      · intro m hm
        cases m with
        | zero => simpa using hnp
        | succ m' =>
          have : m' < (pyFind rest k).toNat := by omega
          simpa using ih3 m' this

theorem pySlice_nonneg (s : List Char) (a b : Int)
    (ha0 : 0 ≤ a) (ha : a ≤ (s.length : Int)) (hb0 : 0 ≤ b) (hb : b ≤ (s.length : Int)) :
    pySlice s a b = (s.take b.toNat).drop a.toNat := by
  simp only [pySlice]
  rw [if_neg (by omega), if_neg (by omega), min_eq_left ha, min_eq_left hb]

theorem pyReplace_noop_of_absent (s old new : List Char) (h : ¬ old <:+: s) :
    pyReplace s old new = s := by
  induction s with
  | nil => exact pyReplace_nil old new
  | cons c rest ih =>
    have hne : ¬ (old ≠ [] ∧ old.isPrefixOf (c :: rest)) := by
      rintro ⟨h1, h2⟩
      exact h (List.isPrefixOf_iff_prefix.mp h2).isInfix
    rw [pyReplace_neg c rest old new hne]
    rw [ih (fun hc => h (List.infix_cons hc))]

theorem replace_key_free (K old new : List Char)
    (hK : K ≠ []) (hnew : new ≠ [])
    (hKnew : ¬ K <:+: new)
    (hleft : ∀ j, j < K.length → 0 < j → ¬ K.take j <:+ new)
    (hright1 : ∀ j, j < K.length → 0 < j → ¬ K.drop j <+: new)
    (hright2 : ∀ j, j < K.length → 0 < j → ¬ new <+: K.drop j) :
    ∀ n, ∀ s : List Char, s.length ≤ n → (old = K ∨ ¬ K <:+: s) →
      ¬ K <:+: pyReplace s old new ∧
        ∀ j, j < K.length → 0 < j →
          K.drop j <+: pyReplace s old new → K.drop j <+: s := by
  intro n
  induction n with
  | zero =>
    intro s hlen _
    have hs : s = [] := List.length_eq_zero.mp (Nat.le_zero.mp hlen)
    subst hs
    rw [pyReplace_nil]
    refine ⟨fun hc => hK (List.infix_nil.mp hc), ?_⟩
    intro j hj hj0 hpre
    exact hpre
  | succ n ih =>
    intro s hlen hdisj
    match s with
    | [] =>
      rw [pyReplace_nil]
      refine ⟨fun hc => hK (List.infix_nil.mp hc), ?_⟩
      intro j hj hj0 hpre
      exact hpre
    | c :: rest =>
      by_cases hp : old ≠ [] ∧ old.isPrefixOf (c :: rest)
      · -- a replacement fires at the front
        rw [pyReplace_pos c rest old new hp.1 hp.2]
        have hlold : 0 < old.length := List.length_pos.mpr hp.1
        have hlen' : ((c :: rest).drop old.length).length ≤ n := by
          simp only [List.length_drop, List.length_cons]
          simp only [List.length_cons] at hlen
          omega
        have hdisj' : old = K ∨ ¬ K <:+: (c :: rest).drop old.length := by
          rcases hdisj with h1 | h1
          · exact Or.inl h1
          · exact Or.inr (fun hc => h1 (infix_of_infix_drop hc))
        obtain ⟨hR1, hR2⟩ := ih ((c :: rest).drop old.length) hlen' hdisj'
        constructor
        · intro hcon
          rcases infix_append_cases3 hcon with h1 | h1 | ⟨j, hj0, hjK, hjsuf, hjpre⟩
          · exact hKnew h1
          · exact hR1 h1
          · exact hleft j hjK hj0 hjsuf
        · intro j hj hj0 hpre
          rcases prefix_append_split hpre with h1 | ⟨h1, h2⟩
          · exact absurd h1 (hright1 j hj hj0)
          · exact absurd h1 (hright2 j hj hj0)
      · rw [pyReplace_neg c rest old new hp]
        have hlen' : rest.length ≤ n := by
          simp only [List.length_cons] at hlen
          omega
        have hdisj' : old = K ∨ ¬ K <:+: rest := by
          rcases hdisj with h1 | h1
          · exact Or.inl h1
          · exact Or.inr (fun hc => h1 (List.infix_cons hc))
        obtain ⟨hR1, hR2⟩ := ih rest hlen' hdisj'
        have hKpre : ¬ K <+: c :: rest := by
          intro hcon
          rcases hdisj with h1 | h1
          · exact hp ⟨h1 ▸ hK, List.isPrefixOf_iff_prefix.mpr (h1 ▸ hcon)⟩
          · exact h1 hcon.isInfix
        constructor
        · intro hcon
          rcases infix_cons_cases hcon with h1 | h1
          · -- K would be a prefix of c :: pyReplace rest old new
            obtain ⟨k0, K', hKe⟩ : ∃ k0 K', K = k0 :: K' := by
              cases K with
              | nil => exact absurd rfl hK
              | cons k0 K' => exact ⟨k0, K', rfl⟩
            subst hKe
            rw [List.cons_prefix_cons] at h1
            obtain ⟨hk0, hK'⟩ := h1
            cases K' with
            | nil => exact hKpre (List.cons_prefix_cons.mpr ⟨hk0, List.nil_prefix⟩)
            | cons k1 K'' =>
              have h1lt : 1 < (k0 :: k1 :: K'').length := by simp
              have hdrop1 : (k0 :: k1 :: K'').drop 1 = k1 :: K'' := rfl
              have hd1 := hR2 1 h1lt (by omega) (by rw [hdrop1]; exact hK')
              rw [hdrop1] at hd1
              exact hKpre (List.cons_prefix_cons.mpr ⟨hk0, hd1⟩)
          · exact hR1 h1
        · intro j hj hj0 hpre
          rw [List.drop_eq_getElem_cons hj] at hpre ⊢
          rw [List.cons_prefix_cons] at hpre ⊢
          obtain ⟨hc1, htail⟩ := hpre
          refine ⟨hc1, ?_⟩
          by_cases hj1 : j + 1 < K.length
          · have hd : K.drop (j + 1) <+: rest := hR2 (j + 1) hj1 (by omega) htail
            exact hd
          · have : K.drop (j + 1) = [] := List.drop_eq_nil_of_le (by omega)
            rw [this]
            exact List.nil_prefix

theorem replace_kills_layoutKey (s : List Char) :
    ¬ layoutKey <:+: pyReplace s layoutKey vmBoth :=
  (replace_key_free layoutKey layoutKey vmBoth (by decide) (by decide) (by decide)
    (by decide) (by decide) (by decide) s.length s (Nat.le_refl _) (Or.inl rfl)).1

theorem replace_preserves_layoutKey_free_size (s : List Char)
    (h : ¬ layoutKey <:+: s) : ¬ layoutKey <:+: pyReplace s sizeKey vmCompact :=
  (replace_key_free layoutKey sizeKey vmCompact (by decide) (by decide) (by decide)
    (by decide) (by decide) (by decide) s.length s (Nat.le_refl _) (Or.inr h)).1

theorem replace_preserves_layoutKey_free_isCompact (s : List Char)
    (h : ¬ layoutKey <:+: s) : ¬ layoutKey <:+: pyReplace s isCompactKey isCompactParen :=
  (replace_key_free layoutKey isCompactKey isCompactParen (by decide) (by decide) (by decide)
    (by decide) (by decide) (by decide) s.length s (Nat.le_refl _) (Or.inr h)).1

theorem apply_mappings_layoutKey_free (code : List Char) :
    ¬ layoutKey <:+: apply_mappings code := by
  simp only [apply_mappings, mappings, List.foldl]
  exact replace_preserves_layoutKey_free_isCompact _
    (replace_preserves_layoutKey_free_size _ (replace_kills_layoutKey _))

theorem pySplit_ne_nil (s sep : List Char) : pySplit s sep ≠ [] := by
  match s with
  | [] => rw [pySplit_nil]; simp
  | c :: rest =>
    by_cases h : sep ≠ [] ∧ sep.isPrefixOf (c :: rest)
    · rw [pySplit_pos c rest sep h.1 h.2]; simp
    · rw [pySplit_neg c rest sep h]; simp

theorem pySplit_length_two (sep : List Char) (hsep : sep ≠ []) :
    ∀ n, ∀ s : List Char, s.length ≤ n → sep <:+: s → 2 ≤ (pySplit s sep).length := by
  intro n
  induction n with
  | zero =>
    intro s hlen hinf
    have hs : s = [] := List.length_eq_zero.mp (Nat.le_zero.mp hlen)
    subst hs
    exact absurd (List.infix_nil.mp hinf) hsep
  | succ n ih =>
    intro s hlen hinf
    match s with
    | [] => exact absurd (List.infix_nil.mp hinf) hsep
    | c :: rest =>
      by_cases hp : sep.isPrefixOf (c :: rest)
      · rw [pySplit_pos c rest sep hsep hp]
        have := pySplit_ne_nil ((c :: rest).drop sep.length) sep
        have hpos : 0 < (pySplit ((c :: rest).drop sep.length) sep).length :=
          List.length_pos.mpr this
        simp only [List.length_cons]
        omega
      · rw [pySplit_neg c rest sep (fun hc => hp hc.2)]
        have hnp : ¬ sep <+: c :: rest := fun hc => hp (List.isPrefixOf_iff_prefix.mpr hc)
        have hrest : sep <:+: rest := by
          rcases infix_cons_cases hinf with h1 | h1
          · exact absurd h1 hnp
          · exact h1
        have hlen' : rest.length ≤ n := by
          simp only [List.length_cons] at hlen
          omega
        have h2 := ih rest hlen' hrest
        obtain ⟨p, ps, hps⟩ : ∃ p ps, pySplit rest sep = p :: ps := by
          cases hq : pySplit rest sep with
          | nil => exact absurd hq (pySplit_ne_nil rest sep)
          | cons p ps => exact ⟨p, ps, rfl⟩
        rw [hps]
        rw [hps] at h2
        simpa using h2

theorem condBodyE_eq (v : List Char) : condBodyE v = Except.ok (condBodyPure v) := by
  unfold condBodyE condBodyPure
  by_cases h : pyIn retParen v
  · rw [if_pos h, if_pos h]
    have hinf : retParen <:+: v := of_decide_eq_true h
    have hlen := pySplit_length_two retParen (by decide) v.length v (Nat.le_refl _) hinf
    have h1 : 1 < (pySplit v retParen).length := by omega
    unfold pyIndex1
    rw [List.getElem?_eq_getElem h1]
    rfl
  · rw [if_neg h, if_neg h]

theorem outputE_eq (cur ref : List Char) : outputE cur ref = Except.ok (outputOf cur ref) := by
  unfold outputE outputOf
  rw [condBodyE_eq, condBodyE_eq]
  rfl

theorem refPath_ne_curPath : refPath ≠ curPath := by decide

theorem runScript_ok (fs : FS) (cur ref : List Char)
    (hc : fs.files curPath = some cur) (hr : fs.files refPath = some ref) :
    runScript fs =
      Except.ok (⟨fun p => if p = curPath then some (outputOf cur ref) else fs.files p⟩,
        printedMessages) := by
  have h1 : readFile fs curPath = Except.ok cur := by unfold readFile; rw [hc]
  have h2 : readFile fs refPath = Except.ok ref := by unfold readFile; rw [hr]
  unfold runScript
  rw [h1, h2]
  show (do
      let _ := headerOf cur
      let out ← outputE cur ref
      Except.ok
        (({ files := fun p => if p = curPath then some out else fs.files p } : FS),
          printedMessages)) =
    Except.ok
      (({ files := fun p => if p = curPath then some (outputOf cur ref) else fs.files p } : FS),
        printedMessages)
  rw [outputE_eq]
  rfl

theorem runScript_missing (fs : FS)
    (h : fs.files curPath = none ∨ fs.files refPath = none) :
    runScript fs = Except.error ScriptErr.fileNotFound := by
  unfold runScript readFile
  rcases h with h1 | h1
  · rw [h1]
    rfl
  · rw [h1]
    cases fs.files curPath <;> rfl

theorem runScript_ok_inv (fs fs' : FS) (msgs : List String)
    (h : runScript fs = Except.ok (fs', msgs)) :
    ∃ cur ref, fs.files curPath = some cur ∧ fs.files refPath = some ref ∧
      fs' = ⟨fun p => if p = curPath then some (outputOf cur ref) else fs.files p⟩ ∧
      msgs = printedMessages := by
  cases hc : fs.files curPath with
  | none =>
    rw [runScript_missing fs (Or.inl hc)] at h
    exact absurd h (by simp)
  | some cur =>
    cases hr : fs.files refPath with
    | none =>
      rw [runScript_missing fs (Or.inr hr)] at h
      exact absurd h (by simp)
    | some ref =>
      rw [runScript_ok fs cur ref hc hr] at h
      have h' := (Except.ok.injEq _ _).mp h
      have h1 := congrArg Prod.fst h'
      have h2 := congrArg Prod.snd h'
      simp only at h1 h2
      exact ⟨cur, ref, rfl, rfl, h1.symm, h2.symm⟩

/-- C1: on every successful run, the string written to
`src/components/tickets/ServiceTicketCard.tsx` is exactly the concatenation,
in order, of: the extracted header fragment, a block guarded by
`viewMode === 'compact'` containing the compact view body, a block guarded by
`viewMode === 'normal'` containing the normal view body, the grid-normal
block, the grid-compact block, and a trailing `return null;` followed by a
closing brace. -/
theorem c1_output_is_concatenation (fs fs' : FS) (msgs : List String) (cur ref : List Char)
    (hc : fs.files curPath = some cur) (hr : fs.files refPath = some ref)
    (h : runScript fs = Except.ok (fs', msgs)) :
    fs'.files curPath = some
      (headerOf cur
        ++ "\n\n  // LIST COMPACT VIEW\n  if (viewMode === \x27compact\x27) \x7b\n    return (\n".toList
        ++ condBodyPure (compact_view ref)
        ++ "\n  \x7d\n\n  // LIST NORMAL VIEW\n  if (viewMode === \x27normal\x27) \x7b\n    return (\n".toList
        ++ condBodyPure (normal_view ref)
        ++ "\n  \x7d\n\n".toList
        ++ grid_normal ref
        ++ "\n\n".toList
        ++ grid_compact ref
        ++ "\n\n  return null;\n\x7d\n".toList) := by
  obtain ⟨cur', ref', hc', hr', hfs', _⟩ := runScript_ok_inv fs fs' msgs h
  obtain rfl : cur' = cur := Option.some.inj (hc'.symm.trans hc)
  obtain rfl : ref' = ref := Option.some.inj (hr'.symm.trans hr)
  subst hfs'
  rfl

/-- Witness for C1 at a concrete pair of files. -/
theorem c1_witness :
    FS.files
        ⟨fun p => if p = curPath then some (outputOf curDemo refDemo) else fsDemo.files p⟩
        curPath
      = some
      (headerOf curDemo
        ++ "\n\n  // LIST COMPACT VIEW\n  if (viewMode === \x27compact\x27) \x7b\n    return (\n".toList
        ++ condBodyPure (compact_view refDemo)
        ++ "\n  \x7d\n\n  // LIST NORMAL VIEW\n  if (viewMode === \x27normal\x27) \x7b\n    return (\n".toList
        ++ condBodyPure (normal_view refDemo)
        ++ "\n  \x7d\n\n".toList
        ++ grid_normal refDemo
        ++ "\n\n".toList
        ++ grid_compact refDemo
        ++ "\n\n  return null;\n\x7d\n".toList) :=
  c1_output_is_concatenation fsDemo
    ⟨fun p => if p = curPath then some (outputOf curDemo refDemo) else fsDemo.files p⟩
    printedMessages curDemo refDemo (by decide) (by decide)
    (runScript_ok fsDemo curDemo refDemo (by decide) (by decide))

/-- C2: when both markers occur in the reference, `list_section` is the
substring of the reference from the first occurrence of
`// List View Layout` up to but excluding the first occurrence of
`// Grid View Layout`, and `grid_section` is the suffix of the reference
starting at the first occurrence of `// Grid View Layout` (the `pyFind`
indices are first occurrences: the marker is a prefix there and at no
earlier position). -/
theorem c2_sections_between_markers (ref : List Char)
    (hL : listMarker <:+: ref) (hG : gridMarker <:+: ref) :
    listMarker <+: ref.drop (pyFind ref listMarker).toNat ∧
    (∀ m, m < (pyFind ref listMarker).toNat → ¬ listMarker <+: ref.drop m) ∧
    gridMarker <+: ref.drop (pyFind ref gridMarker).toNat ∧
    (∀ m, m < (pyFind ref gridMarker).toNat → ¬ gridMarker <+: ref.drop m) ∧
    list_section ref
      = (ref.take (pyFind ref gridMarker).toNat).drop (pyFind ref listMarker).toNat ∧
    grid_section ref = ref.drop (pyFind ref gridMarker).toNat := by
  obtain ⟨hL0, hLpre, hLmin⟩ := pyFind_spec ref listMarker hL
  obtain ⟨hG0, hGpre, hGmin⟩ := pyFind_spec ref gridMarker hG
  refine ⟨hLpre, hLmin, hGpre, hGmin, ?_, ?_⟩
  · unfold list_section
    rw [pySlice_nonneg ref _ _ hL0 (pyFind_le ref listMarker) hG0 (pyFind_le ref gridMarker)]
  · unfold grid_section
    rw [pySlice_nonneg ref _ _ hG0 (pyFind_le ref gridMarker) (by omega) (by omega)]
    rw [Int.toNat_natCast, List.take_length]

/-- Witness for C2 at a concrete reference containing both markers. -/
theorem c2_witness :
    list_section refMk
      = (refMk.take (pyFind refMk gridMarker).toNat).drop (pyFind refMk listMarker).toNat ∧
    grid_section refMk = refMk.drop (pyFind refMk gridMarker).toNat :=
  ⟨(c2_sections_between_markers refMk (by decide) (by decide)).2.2.2.2.1,
   (c2_sections_between_markers refMk (by decide) (by decide)).2.2.2.2.2⟩

/-- C3: `apply_mappings` performs the 13 fixed replacements of the mappings
table sequentially in table order, replacing every occurrence of each key;
and on a string containing no occurrence of any key it is the identity. -/
theorem c3_apply_mappings_chain (code : List Char) :
    apply_mappings code =
      pyReplace
        (pyReplace
          (pyReplace
            (pyReplace
              (pyReplace
                (pyReplace
                  (pyReplace
                    (pyReplace
                      (pyReplace
                        (pyReplace
                          (pyReplace
                            (pyReplace
                              (pyReplace code "card.ticketNumber".toList "ticket.number".toList)
                              "card.customerName".toList "ticket.clientName".toList)
                            "card.serviceName".toList "ticket.service".toList)
                          "card.percentage".toList "progress".toList)
                        "card.isFirstVisit".toList "isFirstVisit".toList)
                      "card.hasStar".toList "hasStar".toList)
                    "card.hasNote".toList "hasNote".toList)
                  "card.staff".toList "staffList".toList)
                "card.timeLeft".toList "formatTime(timeRemaining)".toList)
              "card.id".toList "ticket.id".toList)
            layoutKey vmBoth)
          sizeKey vmCompact)
        isCompactKey isCompactParen ∧
    ((∀ p ∈ mappings, ¬ p.1 <:+: code) → apply_mappings code = code) := by
  refine ⟨rfl, fun h => ?_⟩
  simp only [apply_mappings, mappings, List.foldl]
  rw [pyReplace_noop_of_absent code "card.ticketNumber".toList "ticket.number".toList (h ("card.ticketNumber".toList, "ticket.number".toList) (by simp [mappings]))]
  rw [pyReplace_noop_of_absent code "card.customerName".toList "ticket.clientName".toList (h ("card.customerName".toList, "ticket.clientName".toList) (by simp [mappings]))]
  rw [pyReplace_noop_of_absent code "card.serviceName".toList "ticket.service".toList (h ("card.serviceName".toList, "ticket.service".toList) (by simp [mappings]))]
  rw [pyReplace_noop_of_absent code "card.percentage".toList "progress".toList (h ("card.percentage".toList, "progress".toList) (by simp [mappings]))]
  rw [pyReplace_noop_of_absent code "card.isFirstVisit".toList "isFirstVisit".toList (h ("card.isFirstVisit".toList, "isFirstVisit".toList) (by simp [mappings]))]
  rw [pyReplace_noop_of_absent code "card.hasStar".toList "hasStar".toList (h ("card.hasStar".toList, "hasStar".toList) (by simp [mappings]))]
  rw [pyReplace_noop_of_absent code "card.hasNote".toList "hasNote".toList (h ("card.hasNote".toList, "hasNote".toList) (by simp [mappings]))]
  rw [pyReplace_noop_of_absent code "card.staff".toList "staffList".toList (h ("card.staff".toList, "staffList".toList) (by simp [mappings]))]
  rw [pyReplace_noop_of_absent code "card.timeLeft".toList "formatTime(timeRemaining)".toList (h ("card.timeLeft".toList, "formatTime(timeRemaining)".toList) (by simp [mappings]))]
  rw [pyReplace_noop_of_absent code "card.id".toList "ticket.id".toList (h ("card.id".toList, "ticket.id".toList) (by simp [mappings]))]
  rw [pyReplace_noop_of_absent code layoutKey vmBoth (h (layoutKey, vmBoth) (by simp [mappings]))]
  rw [pyReplace_noop_of_absent code sizeKey vmCompact (h (sizeKey, vmCompact) (by simp [mappings]))]
  rw [pyReplace_noop_of_absent code isCompactKey isCompactParen (h (isCompactKey, isCompactParen) (by simp [mappings]))]

/-- Witness for C3 at a concrete key-free string. -/
theorem c3_witness :
    (∀ p ∈ mappings, ¬ p.1 <:+: "hello".toList) ∧
      apply_mappings "hello".toList = "hello".toList :=
  ⟨by decide, (c3_apply_mappings_chain "hello".toList).2 (by decide)⟩

/-- C4 counterexample: a run on which every pattern match and marker search
fails (`import` absent, both markers absent) yet the script raises nothing
and completes successfully, refuting the claim that a failed pattern match
or marker search raises an unhandled error. -/
theorem c4_counterexample :
    headerMatch curDemo = none ∧
    pyFind refDemo listMarker = -1 ∧
    pyFind refDemo gridMarker = -1 ∧
    (runScript fsDemo).isOk = true := by
  refine ⟨by decide, by decide, by decide, ?_⟩
  rw [runScript_ok fsDemo curDemo refDemo (by decide) (by decide)]
  rfl

/-- C4 (amended): if either input file is missing the script raises an
unhandled error; a failed pattern match or marker search does not raise, and
a run succeeds (exits 0) whenever both reads succeed. -/
theorem c4_missing_file_raises (fs : FS) :
    (fs.files curPath = none ∨ fs.files refPath = none →
      runScript fs = Except.error ScriptErr.fileNotFound) ∧
    (∀ cur ref, fs.files curPath = some cur → fs.files refPath = some ref →
      (runScript fs).isOk = true) := by
  refine ⟨runScript_missing fs, ?_⟩
  intro cur ref hc hr
  rw [runScript_ok fs cur ref hc hr]
  rfl

/-- Witness for C4 (amended): a concrete missing-file run errors, and a
concrete two-file run succeeds. -/
theorem c4_witness :
    runScript fsEmpty = Except.error ScriptErr.fileNotFound ∧
      (runScript fsDemoB).isOk = true :=
  ⟨(c4_missing_file_raises fsEmpty).1 (Or.inl rfl),
   (c4_missing_file_raises fsDemoB).2 curDemo refDemo (by decide) (by decide)⟩

/-- C5: absent markers produce silently empty or malformed fragments and the
run continues: a failed header search yields the empty header; an absent
`// List View Layout` or `// Grid View Layout` marker makes the slice bound
`pyFind` return `-1` (used directly as slice index); with both markers absent
`list_section` is empty and `grid_section` is the last character of the
reference; and such a run still succeeds. -/
theorem c5_absent_markers_silent (cur ref : List Char) :
    (headerMatch cur = none → headerOf cur = []) ∧
    (¬ listMarker <:+: ref →
      pyFind ref listMarker = -1 ∧
        list_section ref = pySlice ref (-1) (pyFind ref gridMarker)) ∧
    (¬ gridMarker <:+: ref →
      pyFind ref gridMarker = -1 ∧
        grid_section ref = pySlice ref (-1) (ref.length : Int)) ∧
    (¬ listMarker <:+: ref → ¬ gridMarker <:+: ref →
      list_section ref = [] ∧ grid_section ref = ref.drop (ref.length - 1)) ∧
    (∀ fs : FS, fs.files curPath = some cur → fs.files refPath = some ref →
      (runScript fs).isOk = true) := by
  refine ⟨?_, ?_, ?_, ?_, ?_⟩
  · intro h
    unfold headerOf
    rw [h]
    rfl
  · intro h
    have hf : pyFind ref listMarker = -1 := (pyFind_eq_neg_one_iff ref listMarker).mpr h
    exact ⟨hf, by unfold list_section; rw [hf]⟩
  · intro h
    have hf : pyFind ref gridMarker = -1 := (pyFind_eq_neg_one_iff ref gridMarker).mpr h
    exact ⟨hf, by unfold grid_section; rw [hf]⟩
  · intro hl hg
    have hfl : pyFind ref listMarker = -1 := (pyFind_eq_neg_one_iff ref listMarker).mpr hl
    have hfg : pyFind ref gridMarker = -1 := (pyFind_eq_neg_one_iff ref gridMarker).mpr hg
    constructor
    · unfold list_section
      rw [hfl, hfg]
      simp only [pySlice]
      apply List.drop_eq_nil_of_le
      rw [List.length_take]
      exact Nat.min_le_left _ _
    · unfold grid_section
      rw [hfg]
      simp only [pySlice]
      rw [if_pos (by omega), if_neg (by omega), min_self, Int.toNat_natCast,
        List.take_length]
      congr 1
      omega
  · intro fs hc hr
    rw [runScript_ok fs cur ref hc hr]
    rfl

/-- Witness for C5 at concrete marker-free files. -/
theorem c5_witness :
    headerOf curDemo = [] ∧
      list_section refDemo = [] ∧ grid_section refDemo = refDemo.drop (refDemo.length - 1) ∧
      (runScript fsDemo).isOk = true :=
  ⟨(c5_absent_markers_silent curDemo refDemo).1 (by decide),
   ((c5_absent_markers_silent curDemo refDemo).2.2.2.1 (by decide) (by decide)).1,
   ((c5_absent_markers_silent curDemo refDemo).2.2.2.1 (by decide) (by decide)).2,
   (c5_absent_markers_silent curDemo refDemo).2.2.2.2 fsDemo (by decide) (by decide)⟩

/-- C6: every run that reaches the final prints (i.e. every successful run)
prints exactly the three success messages, unconditionally. -/
theorem c6_success_messages_unconditional (fs fs' : FS) (msgs : List String)
    (h : runScript fs = Except.ok (fs', msgs)) :
    msgs =
      ["✅ Reference design applied successfully!",
       "📝 File: src/components/tickets/ServiceTicketCard.tsx",
       "\n🧪 Next: Run npm run build to verify"] := by
  obtain ⟨_, _, _, _, _, hm⟩ := runScript_ok_inv fs fs' msgs h
  exact hm

/-- Witness for C6 at a concrete run. -/
theorem c6_witness :
    printedMessages =
      ["✅ Reference design applied successfully!",
       "📝 File: src/components/tickets/ServiceTicketCard.tsx",
       "\n🧪 Next: Run npm run build to verify"] :=
  c6_success_messages_unconditional fsDemo
    ⟨fun p => if p = curPath then some (outputOf curDemo refDemo) else fsDemo.files p⟩
    printedMessages (runScript_ok fsDemo curDemo refDemo (by decide) (by decide))

/-- C7: a successful run writes to exactly one path, `curPath` (the same
path read as the current component source): every other path — in
particular the reference path — keeps its contents, and `curPath` holds the
assembled output of the two files that were read. -/
theorem c7_frame (fs fs' : FS) (msgs : List String)
    (h : runScript fs = Except.ok (fs', msgs)) :
    (∀ p, p ≠ curPath → fs'.files p = fs.files p) ∧
    fs'.files refPath = fs.files refPath ∧
    (∃ cur ref, fs.files curPath = some cur ∧ fs.files refPath = some ref ∧
      fs'.files curPath = some (outputOf cur ref)) := by
  obtain ⟨cur, ref, hc, hr, hfs', _⟩ := runScript_ok_inv fs fs' msgs h
  subst hfs'
  have hoff : ∀ p, p ≠ curPath →
      (if p = curPath then some (outputOf cur ref) else fs.files p) = fs.files p := by
    intro p hp
    rw [if_neg hp]
  refine ⟨hoff, hoff refPath refPath_ne_curPath, cur, ref, hc, hr, ?_⟩
  show (if curPath = curPath then some (outputOf cur ref) else fs.files curPath) = _
  rw [if_pos rfl]

/-- Witness for C7 at a concrete run. -/
theorem c7_witness :
    FS.files
        ⟨fun p => if p = curPath then some (outputOf curDemo refDemo) else fsDemo.files p⟩
        refPath
      = fsDemo.files refPath :=
  (c7_frame fsDemo
    ⟨fun p => if p = curPath then some (outputOf curDemo refDemo) else fsDemo.files p⟩
    printedMessages (runScript_ok fsDemo curDemo refDemo (by decide) (by decide))).2.1

/-- C8: the transformation is deterministic and depends only on the contents
of the two fixed input paths: two file systems agreeing on those two paths
produce the same observable result (same written bytes, same messages, or
the same error). -/
theorem c8_deterministic (fs1 fs2 : FS)
    (h1 : fs1.files curPath = fs2.files curPath)
    (h2 : fs1.files refPath = fs2.files refPath) :
    observedOutput (runScript fs1) = observedOutput (runScript fs2) := by
  cases hc : fs1.files curPath with
  | none =>
    rw [runScript_missing fs1 (Or.inl hc), runScript_missing fs2 (Or.inl (h1 ▸ hc))]
  | some cur =>
    cases hr : fs1.files refPath with
    | none =>
      rw [runScript_missing fs1 (Or.inr hr), runScript_missing fs2 (Or.inr (h2 ▸ hr))]
    | some ref =>
      rw [runScript_ok fs1 cur ref hc hr, runScript_ok fs2 cur ref (h1 ▸ hc) (h2 ▸ hr)]
      unfold observedOutput
      simp only [Except.map]
      simp

/-- Witness for C8: two concrete file systems that differ outside the two
input paths give identical observations. -/
theorem c8_witness : observedOutput (runScript fsDemo) = observedOutput (runScript fsDemoB) :=
  c8_deterministic fsDemo fsDemoB (by decide) (by decide)

/-- C9: whenever both input files are readable, the script runs to
completion without raising: the header-regex result is guarded, `find`
returning `-1` slices without error, and the guarded `[1]` indexing after
splitting never faults, so the run ends in `Except.ok`, writing the
assembled output and printing the messages. -/
theorem c9_total_on_read_success (fs : FS) (cur ref : List Char)
    (hc : fs.files curPath = some cur) (hr : fs.files refPath = some ref) :
    runScript fs =
      Except.ok (⟨fun p => if p = curPath then some (outputOf cur ref) else fs.files p⟩,
        printedMessages) :=
  runScript_ok fs cur ref hc hr

/-- Witness for C9 at a concrete pair of files. -/
theorem c9_witness :
    runScript fsDemo =
      Except.ok (⟨fun p => if p = curPath then some (outputOf curDemo refDemo) else fsDemo.files p⟩,
        printedMessages) :=
  c9_total_on_read_success fsDemo curDemo refDemo (by decide) (by decide)

/-- C10: `apply_mappings` has already eliminated every occurrence of
`layout === 'list'` from `list_adapted`, so the extra replacements of that
key while building `compact_view` and `normal_view` are no-ops: the two
views are exactly `list_adapted` with `(viewMode === 'compact')` rewritten
to `true` resp. `false` — they differ from `list_adapted`, and hence from
each other, only at those occurrences. -/
theorem c10_layout_replace_noop (ref : List Char) :
    ¬ layoutKey <:+: list_adapted ref ∧
    compact_view ref = pyReplace (list_adapted ref) isCompactParen "true".toList ∧
    normal_view ref = pyReplace (list_adapted ref) isCompactParen "false".toList := by
  have hfree : ¬ layoutKey <:+: list_adapted ref := apply_mappings_layoutKey_free _
  refine ⟨hfree, ?_, ?_⟩
  · unfold compact_view
    rw [pyReplace_noop_of_absent _ _ _ hfree]
  · unfold normal_view
    rw [pyReplace_noop_of_absent _ _ _ hfree]
